import Mathlib

set_option linter.unusedVariables false
set_option linter.unnecessarySeqFocus false
set_option linter.deprecated false

/-!
Verification of `src/tcp2udp.rs` from the udp-over-tcp repository.

The Rust module sets up TCP listening sockets (`run`, `create_listening_socket`),
accepts connections in per-listener loops (`process_tcp_listener`) and, per
accepted connection, binds and connects a UDP socket and bridges traffic
(`process_socket`).

Embedding: each effectful operation is driven by an environment that supplies
the outcome of every system call; every function additionally produces the
ordered list of socket operations it attempted (its event trace).  The
concurrent behaviour of `run` together with the listener tasks it spawns via
`tokio::spawn` is given by a small-step interleaving relation `RunStep`.
-/

namespace UdpOverTcp

/-- Address family of a socket, as selected by `TcpSocket::new_v4` / `new_v6`. -/
inductive AddrFamily
  | v4
  | v6
  deriving DecidableEq, Repr

/-- Model of `std::net::IpAddr`: either four IPv4 octets or eight IPv6 segments. -/
inductive IpAddr
  | v4 (a b c d : Nat)
  | v6 (segs : List Nat)
  deriving DecidableEq, Repr

/-- The address family an `IpAddr` belongs to. -/
def IpAddr.family : IpAddr → AddrFamily
  | .v4 _ _ _ _ => .v4
  | .v6 _ => .v6

/-- `Ipv4Addr::UNSPECIFIED` / `Ipv6Addr::UNSPECIFIED`: the all-zero address. -/
def IpAddr.is_unspecified : IpAddr → Bool
  | .v4 a b c d => a == 0 && b == 0 && c == 0 && d == 0
  | .v6 segs => segs.all (· == 0)

/-- Model of `std::net::SocketAddr`: an IP address plus a port.
`SocketAddr::new(ip, port)` is the anonymous constructor; the V4/V6 variant is
determined by the family of `ip`. -/
structure SocketAddr where
  ip : IpAddr
  port : Nat
  deriving DecidableEq, Repr

/-- The address family of a socket address (which enum variant it is in Rust). -/
def SocketAddr.family (a : SocketAddr) : AddrFamily := a.ip.family

/-- An opaque I/O error (`std::io::Error`), identified by a code. -/
structure IoError where
  code : Nat
  deriving DecidableEq, Repr

/-- The `Tcp2UdpError` enum of `tcp2udp.rs` (lines 31-35): its only variant is
`NoTcpListenAddrs`. -/
inductive Tcp2UdpError
  | noTcpListenAddrs
  deriving DecidableEq, Repr

/-- The dynamic `Box<dyn std::error::Error>` values that `run`,
`create_listening_socket` and `process_socket` can return, one constructor per
distinct error construction site, each carrying the context attached by
`err_context` at that site. -/
inductive BoxedError
  | config (e : Tcp2UdpError)
  | socketCreateFailed (cause : IoError)
  | tcpOptionsApplyFailed (cause : IoError)
  | reuseaddrFailed (cause : IoError)
  | tcpBindFailed (addr : SocketAddr) (cause : IoError)
  | listenFailed (cause : IoError)
  | udpBindFailed (addr : SocketAddr) (cause : IoError)
  | udpConnectFailed (addr : SocketAddr) (cause : IoError)
  deriving DecidableEq, Repr

/-- The `Options` struct (lines 11-28).  `tcp_options` is external tuning state
whose application outcome the environment supplies, so it is not carried here. -/
structure Options where
  tcp_listen_addrs : List SocketAddr
  udp_forward_addr : SocketAddr
  udp_bind_ip : IpAddr
  deriving DecidableEq, Repr

/-- The structopt attribute on `Options::udp_bind_ip` (line 23) gives the field
the default value parsed from the string 0.0.0.0 when `--udp-bind` is absent. -/
def default_udp_bind_ip : IpAddr := .v4 0 0 0 0

/-- Socket operations attempted by the module, in the order they are issued.
`acceptConn`/`acceptError` are tagged with the listening address they happen on. -/
inductive Event
  | newTcpSocket (family : AddrFamily)
  | applyTcpOptions
  | setReuseaddr
  | tcpBind (addr : SocketAddr)
  | tcpListen (backlog : Nat)
  | spawnListener (addr : SocketAddr)
  | acceptConn (listenAddr peer : SocketAddr)
  | acceptError (listenAddr : SocketAddr)
  | spawnSession (peer : SocketAddr)
  | udpBind (addr : SocketAddr)
  | udpConnect (addr : SocketAddr)
  | runBridge
  | logSessionError
  deriving DecidableEq, Repr

/-- Outcomes the operating system gives to the five system calls made by
`create_listening_socket` for one listening address. -/
structure ListenerEnv where
  newSocket : Except IoError Unit
  applyOpts : Except IoError Unit
  setReuse : Except IoError Unit
  bindTcp : Except IoError Unit
  listenTcp : Except IoError Unit
  deriving Repr

/-- `create_listening_socket` (lines 79-98): create a TCP socket of the address
family of `addr`, apply the TCP options, set `SO_REUSEADDR`, bind to `addr`,
and listen with backlog 1024.  The first failing step aborts with its
contextualised error.  Returns the result together with the trace of attempted
operations. -/
def create_listening_socket (addr : SocketAddr) (env : ListenerEnv) :
    Except BoxedError Unit × List Event :=
  match env.newSocket with
  | .error e => (.error (.socketCreateFailed e), [.newTcpSocket addr.family])
  | .ok _ =>
    match env.applyOpts with
    | .error e => (.error (.tcpOptionsApplyFailed e),
        [.newTcpSocket addr.family, .applyTcpOptions])
    | .ok _ =>
      match env.setReuse with
      | .error e => (.error (.reuseaddrFailed e),
          [.newTcpSocket addr.family, .applyTcpOptions, .setReuseaddr])
      | .ok _ =>
        match env.bindTcp with
        | .error e => (.error (.tcpBindFailed addr e),
            [.newTcpSocket addr.family, .applyTcpOptions, .setReuseaddr, .tcpBind addr])
        | .ok _ =>
          match env.listenTcp with
          | .error e => (.error (.listenFailed e),
              [.newTcpSocket addr.family, .applyTcpOptions, .setReuseaddr,
                .tcpBind addr, .tcpListen 1024])
          | .ok _ =>
            (.ok (), [.newTcpSocket addr.family, .applyTcpOptions, .setReuseaddr,
                .tcpBind addr, .tcpListen 1024])

/-- How the bridging call `forward_traffic::process_udp_over_tcp` (line 154)
terminated.  Its return value is discarded by `process_socket`; the
constructors enumerate the termination causes the spec describes (clean close,
protocol violation, transport I/O failure). -/
inductive BridgeOutcome
  | cleanClose
  | protocolViolation
  | transportError (e : IoError)
  deriving DecidableEq, Repr

/-- Outcomes the operating system gives to the per-session UDP system calls,
plus how the bridge terminates once it runs. -/
structure SessionEnv where
  udpBindRes : SocketAddr → Except IoError Unit
  udpConnectRes : SocketAddr → Except IoError Unit
  bridgeOutcome : BridgeOutcome

/-- `process_socket` (lines 127-162): bind a UDP socket to
`SocketAddr::new(udp_bind_ip, 0)`, connect it to `udp_peer_addr`, then run the
bridge; the bridge result is discarded and `Ok(())` is returned.  A bind or
connect failure returns the contextualised error before the bridge runs. -/
def process_socket (tcp_peer_addr : SocketAddr) (udp_bind_ip : IpAddr)
    (udp_peer_addr : SocketAddr) (env : SessionEnv) :
    Except BoxedError Unit × List Event :=
  let udp_bind_addr : SocketAddr := ⟨udp_bind_ip, 0⟩
  match env.udpBindRes udp_bind_addr with
  | .error e => (.error (.udpBindFailed udp_bind_addr e), [.udpBind udp_bind_addr])
  | .ok _ =>
    match env.udpConnectRes udp_peer_addr with
    | .error e => (.error (.udpConnectFailed udp_peer_addr e),
        [.udpBind udp_bind_addr, .udpConnect udp_peer_addr])
    | .ok _ =>
      (.ok (), [.udpBind udp_bind_addr, .udpConnect udp_peer_addr, .runBridge])

/-- The async block spawned per accepted connection (lines 110-117): run
`process_socket`; an `Err` is logged and consumed, an `Ok` produces no log
entry.  Either way the task returns unit, so only the trace remains. -/
def session_task (tcp_peer_addr : SocketAddr) (udp_bind_ip : IpAddr)
    (udp_peer_addr : SocketAddr) (env : SessionEnv) : List Event :=
  match process_socket tcp_peer_addr udp_bind_ip udp_peer_addr env with
  | (.error _, evs) => evs ++ [.logSessionError]
  | (.ok _, evs) => evs

/-- The outcome of one `tcp_listener.accept().await` (line 106). -/
inductive AcceptOutcome
  | conn (peer : SocketAddr)
  | err (e : IoError)
  deriving DecidableEq, Repr

/-- Whether an iteration of a `loop` continues or breaks out. -/
inductive LoopControl
  | continueLoop
  | breakLoop
  deriving DecidableEq, Repr

/-- The body of the `loop` in `process_tcp_listener` (lines 105-121): a
successful accept logs the connection and spawns the session task; a failed
accept logs the error.  Both arms fall through to the next iteration. -/
def accept_loop_body (listenAddr : SocketAddr) :
    AcceptOutcome → LoopControl × List Event
  | .conn peer => (.continueLoop, [.acceptConn listenAddr peer, .spawnSession peer])
  | .err _ => (.continueLoop, [.acceptError listenAddr])

/-- Control state of one spawned `process_tcp_listener` task: still accepting,
or returned (which the source's return type `!` promises never happens). -/
inductive ListenerPhase
  | accepting
  | finished
  deriving DecidableEq, Repr

/-- One spawned listener task: its listening address and control state. -/
structure ListenerTask where
  addr : SocketAddr
  phase : ListenerPhase
  deriving DecidableEq, Repr

/-- One scheduler step of a listener task: while accepting, run the loop body
on the accept outcome the environment produced and continue or finish
accordingly; a finished task does nothing. -/
def listener_task_step (t : ListenerTask) (o : AcceptOutcome) :
    ListenerTask × List Event :=
  match t.phase with
  | .accepting =>
    match accept_loop_body t.addr o with
    | (.continueLoop, evs) => (⟨t.addr, .accepting⟩, evs)
    | (.breakLoop, _) => (⟨t.addr, .finished⟩, [])
  | .finished => (t, [])

/-- `std::convert::Infallible`, the success type of `run`: an empty type. -/
def Infallible := Empty

/-- Control state of the `run` task itself: binding the remaining listen
addresses (the `for` loop, lines 65-74), blocked in `join_all` (line 75),
returned with an error, or hit the `unreachable!` panic (line 76). -/
inductive MainPhase
  | setup (pending : List SocketAddr)
  | joining
  | done (e : BoxedError)
  | panicked
  deriving DecidableEq, Repr

/-- Global state of `run` and the listener tasks it has spawned, with the
accumulated trace of socket operations. -/
structure RunState where
  main : MainPhase
  listeners : List ListenerTask
  log : List Event
  deriving Repr

/-- The synchronous prefix of `run` (lines 60-62): with no listen addresses it
returns `Err(NoTcpListenAddrs)` having touched no socket and spawned no task;
otherwise it enters the `for` loop over the configured addresses. -/
def run_start (options : Options) : RunState :=
  if options.tcp_listen_addrs.isEmpty then
    ⟨.done (.config .noTcpListenAddrs), [], []⟩
  else
    ⟨.setup options.tcp_listen_addrs, [], []⟩

/-- The value `run` has returned, if it has: a `done` state returned that
error; while setting up, joining, or panicking nothing is returned. -/
def RunState.runReturn (s : RunState) : Option (Except BoxedError Infallible) :=
  match s.main with
  | .done e => some (.error e)
  | _ => none

/-- Interleaving semantics of `run` (lines 59-77) together with the listener
tasks spawned on line 71.  The main task binds one address per step (`?` makes
a failure return at once), moves to `join_all` when the loop ends, and reaches
the `unreachable!` only if every listener task has finished.  Spawned listener
tasks step concurrently at any time, with the accept outcome chosen by the
scheduler/network. -/
inductive RunStep (env : SocketAddr → ListenerEnv) : RunState → RunState → Prop
  | bindOk (s : RunState) (a : SocketAddr) (rest : List SocketAddr)
      (evs : List Event) :
      s.main = .setup (a :: rest) →
      create_listening_socket a (env a) = (.ok (), evs) →
      RunStep env s ⟨.setup rest, s.listeners ++ [⟨a, .accepting⟩],
        s.log ++ evs ++ [.spawnListener a]⟩
  | bindErr (s : RunState) (a : SocketAddr) (rest : List SocketAddr)
      (e : BoxedError) (evs : List Event) :
      s.main = .setup (a :: rest) →
      create_listening_socket a (env a) = (.error e, evs) →
      RunStep env s ⟨.done e, s.listeners, s.log ++ evs⟩
  | setupDone (s : RunState) :
      s.main = .setup [] →
      RunStep env s ⟨.joining, s.listeners, s.log⟩
  | joinAll (s : RunState) :
      s.main = .joining →
      (∀ t ∈ s.listeners, t.phase = .finished) →
      RunStep env s ⟨.panicked, s.listeners, s.log⟩
  | listener (s : RunState) (i : Nat) (o : AcceptOutcome)
      (h : i < s.listeners.length) :
      RunStep env s ⟨s.main,
        s.listeners.set i (listener_task_step (s.listeners.get ⟨i, h⟩) o).1,
        s.log ++ (listener_task_step (s.listeners.get ⟨i, h⟩) o).2⟩

/-- States reachable by the interleaving semantics. -/
def RunReachable (env : SocketAddr → ListenerEnv) : RunState → RunState → Prop :=
  Relation.ReflTransGen (RunStep env)

/-- Modelled from the spec: the framing protocol of the `forward_traffic`
module (not part of this source tree).  One datagram payload is carried on the
stream as a 2-byte big-endian length header followed by the payload bytes. -/
def encodeFrame (p : List Nat) : List Nat :=
  p.length / 256 :: p.length % 256 :: p

/-- Modelled from the spec: the datagram→stream pump writes each payload as a
frame; the bytes observed on the stream are the concatenated frames. -/
def encodeStream (ps : List (List Nat)) : List Nat :=
  (ps.map encodeFrame).flatten

/-- Modelled from the spec: the stream→datagram pump.  Read a 2-byte
big-endian length header (end of stream right here is clean termination), read
exactly that many payload bytes (a short read is a truncated-frame error,
`none`), emit the payload as one datagram, repeat. -/
def decodeStream : List Nat → Option (List (List Nat))
  | [] => some []
  | [_] => none
  | hi :: lo :: rest =>
    match decodeStream (rest.drop (hi * 256 + lo)) with
    | some ps =>
      if hi * 256 + lo ≤ rest.length then some (rest.take (hi * 256 + lo) :: ps)
      else none
    | none => none
termination_by l => l.length
decreasing_by
  simp only [List.length_drop, List.length_cons]
  omega

/-- Invariant used for C4: every spawned listener task is still in its accept
loop, the main task can only be in `join_all` with at least one listener
spawned, and the `unreachable!` panic has not been reached. -/
def NoPanicInv (s : RunState) : Prop :=
  (∀ t ∈ s.listeners, t.phase = .accepting) ∧
  (s.main = .joining → s.listeners ≠ []) ∧
  s.main ≠ .panicked ∧
  (s.main = .setup [] → s.listeners ≠ [])

/-- Invariant used for C1: when binding address number `k` of `addrs` fails
with `e` (and all earlier binds succeed), the main task never completes
setup, any error it returns is `e`, and listeners, spawns and accepted
connections only ever concern the addresses strictly before `k`. -/
def BindFailInv (addrs : List SocketAddr) (k : Nat) (e : BoxedError)
    (s : RunState) : Prop :=
  s.main ≠ .joining ∧
  s.main ≠ .panicked ∧
  (∀ e2, s.main = .done e2 → e2 = e) ∧
  (∀ pending, s.main = .setup pending →
    ∃ i, i ≤ k ∧ pending = addrs.drop i ∧
      s.listeners.map ListenerTask.addr = addrs.take i) ∧
  (∀ t ∈ s.listeners, t.addr ∈ addrs.take k) ∧
  (∀ a, Event.spawnListener a ∈ s.log → a ∈ addrs.take k) ∧
  (∀ a p, Event.acceptConn a p ∈ s.log → a ∈ addrs.take k)

/-- First listen address of the two-listener counterexample scenario. -/
def cexA1 : SocketAddr := ⟨.v4 127 0 0 1, 5001⟩

/-- Second listen address of the counterexample scenario (already in use). -/
def cexA2 : SocketAddr := ⟨.v4 127 0 0 1, 5002⟩

/-- A TCP peer that connects to the first listener in the counterexample. -/
def cexPeer : SocketAddr := ⟨.v4 10 1 1 1, 40000⟩

/-- Options of the counterexample scenario: two listen addresses. -/
def cexOptions : Options := ⟨[cexA1, cexA2], ⟨.v4 127 0 0 1, 51820⟩, .v4 0 0 0 0⟩

/-- Environment of the counterexample scenario: every system call succeeds
except binding `cexA2`, which fails with error code 98 (address in use). -/
def cexEnv : SocketAddr → ListenerEnv := fun a =>
  if a = cexA2 then ⟨.ok (), .ok (), .ok (), .error ⟨98⟩, .ok ()⟩
  else ⟨.ok (), .ok (), .ok (), .ok (), .ok ()⟩

/-- Trace of successfully setting up the listener on `cexA1`. -/
def cexEvs1 : List Event :=
  [.newTcpSocket .v4, .applyTcpOptions, .setReuseaddr, .tcpBind cexA1,
    .tcpListen 1024]

/-- Counterexample state after `run` bound and spawned the first listener. -/
def cexS1 : RunState :=
  ⟨.setup [cexA2], [⟨cexA1, .accepting⟩], cexEvs1 ++ [.spawnListener cexA1]⟩

/-- Counterexample state after the first listener accepted a connection while
`run` had not yet attempted the second bind. -/
def cexS2 : RunState :=
  ⟨.setup [cexA2], [⟨cexA1, .accepting⟩],
    (cexEvs1 ++ [.spawnListener cexA1]) ++
      [.acceptConn cexA1 cexPeer, .spawnSession cexPeer]⟩

/-- Counterexample state after the second bind failed and `run` returned the
error: a connection was already accepted on the first listen address. -/
def cexFinal : RunState :=
  ⟨.done (.tcpBindFailed cexA2 ⟨98⟩), [⟨cexA1, .accepting⟩],
    ((cexEvs1 ++ [.spawnListener cexA1]) ++
      [.acceptConn cexA1 cexPeer, .spawnSession cexPeer]) ++
      [.newTcpSocket .v4, .applyTcpOptions, .setReuseaddr, .tcpBind cexA2]⟩

/-! ## Theorems -/

/-- Invariance along reachable states of the interleaving semantics. -/
theorem runReachable_invariant {env : SocketAddr → ListenerEnv}
    {start : RunState} (Inv : RunState → Prop) (h0 : Inv start)
    (hstep : ∀ s t, Inv s → RunStep env s t → Inv t)
    {s : RunState} (h : RunReachable env start s) : Inv s := by
  induction h with
  | refl => exact h0
  | tail hr hs ih => exact hstep _ _ ih hs

/-- A listener task keeps its listening address across a step. -/
theorem listener_task_step_addr (t : ListenerTask) (o : AcceptOutcome) :
    (listener_task_step t o).1.addr = t.addr := by
  obtain ⟨a, ph⟩ := t
  cases ph <;> cases o <;> rfl

/-- A listener task that is accepting is still accepting after any step. -/
theorem listener_task_step_accepting (t : ListenerTask) (o : AcceptOutcome)
    (h : t.phase = .accepting) :
    (listener_task_step t o).1.phase = .accepting := by
  obtain ⟨a, ph⟩ := t
  cases ph <;> cases o <;> simp_all [listener_task_step, accept_loop_body]

/-- Events emitted by one listener step: an accepted connection on the task's
own address together with the session spawn, or a logged accept error. -/
theorem listener_task_step_events (t : ListenerTask) (o : AcceptOutcome)
    (ev : Event) (h : ev ∈ (listener_task_step t o).2) :
    (∃ p, ev = .acceptConn t.addr p) ∨ (∃ p, ev = .spawnSession p) ∨
    ev = .acceptError t.addr := by
  obtain ⟨a, ph⟩ := t
  cases ph <;> cases o <;>
    simp_all [listener_task_step, accept_loop_body] <;> tauto

/-- The trace of `create_listening_socket` only contains listener-setup
operations. -/
theorem create_listening_socket_events (addr : SocketAddr) (env : ListenerEnv)
    (ev : Event) (h : ev ∈ (create_listening_socket addr env).2) :
    ev = .newTcpSocket addr.family ∨ ev = .applyTcpOptions ∨
    ev = .setReuseaddr ∨ ev = .tcpBind addr ∨ ev = .tcpListen 1024 := by
  obtain ⟨ns, ao, sr, bt, lt⟩ := env
  cases ns <;> cases ao <;> cases sr <;> cases bt <;> cases lt <;>
    simp_all [create_listening_socket] <;> tauto

/-- The element at an index below `k` belongs to the first `k` elements. -/
theorem mem_take_of_lt {α : Type} (l : List α) (i k : Nat) (hik : i < k)
    (hil : i < l.length) : l.get ⟨i, hil⟩ ∈ l.take k := by
  apply List.get?_mem (n := i)
  rw [List.get?_eq_getElem?, List.getElem?_take_of_lt hik,
    ← List.get?_eq_getElem?, List.get?_eq_get hil]

/-- Writing back the element already at an index leaves a list unchanged. -/
theorem set_get_self {α : Type} :
    ∀ (l : List α) (i : Nat) (h : i < l.length), l.set i (l.get ⟨i, h⟩) = l
  | _ :: _, 0, _ => rfl
  | x :: xs, i + 1, h =>
    congrArg (x :: ·) (set_get_self xs i (Nat.lt_of_succ_lt_succ h))

/-- The starting state of `run` satisfies the no-panic invariant. -/
theorem run_start_noPanicInv (options : Options) :
    NoPanicInv (run_start options) := by
  unfold NoPanicInv run_start
  by_cases he : options.tcp_listen_addrs.isEmpty
  · rw [if_pos he]
    refine ⟨by simp, by simp, by simp, by simp⟩
  · rw [if_neg he]
    refine ⟨by simp, ?_, by simp, ?_⟩
    · intro hj
      exact absurd hj (by simp)
    · intro hs _
      apply he
      have : options.tcp_listen_addrs = [] := by
        injection hs
      simp [this]

/-- Every step of the interleaving semantics preserves the no-panic
invariant. -/
theorem noPanicInv_step {env : SocketAddr → ListenerEnv} (s t : RunState)
    (h : NoPanicInv s) (hstep : RunStep env s t) : NoPanicInv t := by
  obtain ⟨hacc, hjoin, hpan, hsetup⟩ := h
  cases hstep with
  | bindOk a rest evs hm hc =>
    refine ⟨?_, by intro hj; exact absurd hj (by simp), by simp, ?_⟩
    · intro u hu
      rcases List.mem_append.1 hu with hu | hu
      · exact hacc u hu
      · rw [List.mem_singleton.1 hu]
    · intro _
      simp
  | bindErr a rest e evs hm hc =>
    exact ⟨hacc, by intro hj; exact absurd hj (by simp), by simp,
      by intro hj; exact absurd hj (by simp)⟩
  | setupDone hm =>
    exact ⟨hacc, fun _ => hsetup hm, by simp, by intro hj; exact absurd hj (by simp)⟩
  | joinAll hm hfin =>
    obtain ⟨x, xs, hxs⟩ := List.exists_cons_of_ne_nil (hjoin hm)
    have h1 : x.phase = .accepting := hacc x (by rw [hxs]; exact List.mem_cons_self x xs)
    have h2 : x.phase = .finished := hfin x (by rw [hxs]; exact List.mem_cons_self x xs)
    rw [h1] at h2
    exact ListenerPhase.noConfusion h2
  | listener i o hlen =>
    refine ⟨?_, ?_, hpan, ?_⟩
    · intro u hu
      rcases List.mem_or_eq_of_mem_set hu with hu | hu
      · exact hacc u hu
      · rw [hu]
        exact listener_task_step_accepting _ o (hacc _ (List.get_mem _ i hlen))
    · intro hj hnil
      exact hjoin hj ((List.set_eq_nil_iff _ _).1 hnil)
    · intro hj hnil
      exact hsetup hj ((List.set_eq_nil_iff _ _).1 hnil)

/-- C4: the accept loop of `process_tcp_listener` continues on every accept
outcome (it has no terminating branch), the `unreachable!` after `join_all`
is never reached in any interleaving, and any value `run` ever returns is an
error: its success type `Infallible` is uninhabited. -/
theorem process_tcp_listener_never_returns (options : Options)
    (env : SocketAddr → ListenerEnv) (s : RunState)
    (h : RunReachable env (run_start options) s) :
    (∀ a o, (accept_loop_body a o).1 = .continueLoop) ∧
    s.main ≠ .panicked ∧
    (∀ r, s.runReturn = some r → ∃ e, r = .error e) := by
  have hinv : NoPanicInv s :=
    runReachable_invariant NoPanicInv (run_start_noPanicInv options)
      (fun s t hi hstep => noPanicInv_step s t hi hstep) h
  refine ⟨fun a o => by cases o <;> rfl, hinv.2.2.1, ?_⟩
  intro r hr
  unfold RunState.runReturn at hr
  cases hm : s.main with
  | done e =>
    rw [hm] at hr
    exact ⟨e, (Option.some.injEq _ _ ▸ hr :
      (Except.error e : Except BoxedError Infallible) = r).symm⟩
  | setup pending => rw [hm] at hr; exact Option.noConfusion hr
  | joining => rw [hm] at hr; exact Option.noConfusion hr
  | panicked => exact absurd hm hinv.2.2.1

/-- C4 witness: the listener on a single concrete address; at the start state
the panic is unreached. -/
theorem process_tcp_listener_never_returns_witness :
    (run_start ⟨[⟨.v4 0 0 0 0, 51820⟩], ⟨.v4 127 0 0 1, 51820⟩,
      .v4 0 0 0 0⟩).main ≠ MainPhase.panicked :=
  (process_tcp_listener_never_returns
    ⟨[⟨.v4 0 0 0 0, 51820⟩], ⟨.v4 127 0 0 1, 51820⟩, .v4 0 0 0 0⟩
    (fun _ => ⟨.ok (), .ok (), .ok (), .ok (), .ok ()⟩) _
    Relation.ReflTransGen.refl).2.1

/-- Replacing a listener task by its stepped version does not change the list
of listening addresses. -/
theorem map_addr_set_step (l : List ListenerTask) (i : Nat)
    (h : i < l.length) (o : AcceptOutcome) :
    (l.set i (listener_task_step (l.get ⟨i, h⟩) o).1).map ListenerTask.addr =
      l.map ListenerTask.addr := by
  rw [List.map_set, listener_task_step_addr]
  have h2 : i < (l.map ListenerTask.addr).length := by
    rw [List.length_map]
    exact h
  have h3 : (l.get ⟨i, h⟩).addr = (l.map ListenerTask.addr).get ⟨i, h2⟩ := by
    rw [List.get_eq_getElem, List.get_eq_getElem, List.getElem_map]
  rw [h3, set_get_self]

/-- The starting state of `run` satisfies the bind-failure invariant whenever
the failing index is in range. -/
theorem run_start_bindFailInv (options : Options) (k : Nat) (e : BoxedError)
    (hk : k < options.tcp_listen_addrs.length) :
    BindFailInv options.tcp_listen_addrs k e (run_start options) := by
  have hne : options.tcp_listen_addrs ≠ [] :=
    List.ne_nil_of_length_pos (Nat.lt_of_le_of_lt (Nat.zero_le k) hk)
  have h0 : run_start options = ⟨.setup options.tcp_listen_addrs, [], []⟩ := by
    unfold run_start
    cases hx : options.tcp_listen_addrs with
    | nil => exact absurd hx hne
    | cons y ys => rfl
  rw [h0]
  refine ⟨fun h => MainPhase.noConfusion h, fun h => MainPhase.noConfusion h,
    fun e2 h => MainPhase.noConfusion h, ?_, by simp, by simp, by simp⟩
  intro pending hp
  have hpe : pending = options.tcp_listen_addrs := by
    injection hp with h2
    exact h2.symm
  subst hpe
  exact ⟨0, Nat.zero_le k, by simp, by simp⟩

/-- Every step of the interleaving semantics preserves the bind-failure
invariant. -/
theorem bindFailInv_step (addrs : List SocketAddr)
    (env : SocketAddr → ListenerEnv) (k : Nat) (e : BoxedError)
    (hk : k < addrs.length)
    (hfail : (create_listening_socket (addrs.get ⟨k, hk⟩)
      (env (addrs.get ⟨k, hk⟩))).1 = .error e)
    (hok : ∀ j (hj : j < k),
      (create_listening_socket (addrs.get ⟨j, hj.trans hk⟩)
        (env (addrs.get ⟨j, hj.trans hk⟩))).1 = .ok ())
    (s t : RunState) (h : BindFailInv addrs k e s)
    (hstep : RunStep env s t) : BindFailInv addrs k e t := by
  obtain ⟨hnj, hnp, hdone, hpend, hlis, hspawn, hconn⟩ := h
  cases hstep with
  | bindOk a rest evs hm hc =>
    obtain ⟨i, hik, hpe, hmap⟩ := hpend _ hm
    have hil : i < addrs.length := by
      by_contra hx
      rw [List.drop_eq_nil_iff.2 (Nat.le_of_not_lt hx)] at hpe
      exact List.noConfusion hpe
    rw [List.drop_eq_get_cons hil] at hpe
    injection hpe with ha hrest
    have hik2 : i < k := by
      rcases Nat.lt_or_ge i k with h1 | h1
      · exact h1
      · exfalso
        have hike : i = k := Nat.le_antisymm hik h1
        subst hike
        have h2 := hfail
        rw [ha] at hc
        rw [hc] at h2
        exact Except.noConfusion h2
    refine ⟨fun h2 => MainPhase.noConfusion h2, fun h2 => MainPhase.noConfusion h2,
      fun e2 h2 => MainPhase.noConfusion h2, ?_, ?_, ?_, ?_⟩
    · intro pending hp
      have hpr : pending = rest := by
        injection hp with h2
        exact h2.symm
      subst hpr
      refine ⟨i + 1, Nat.succ_le_of_lt hik2, hrest, ?_⟩
      rw [List.map_append, hmap, List.take_succ, List.getElem?_eq_getElem hil]
      rw [ha, List.get_eq_getElem]
      rfl
    · intro u hu
      rcases List.mem_append.1 hu with hu | hu
      · exact hlis u hu
      · rw [List.mem_singleton.1 hu, ha]
        exact mem_take_of_lt addrs i k hik2 hil
    · intro b hb
      rcases List.mem_append.1 hb with hb | hb
      · rcases List.mem_append.1 hb with hb | hb
        · exact hspawn b hb
        · have hb2 : Event.spawnListener b ∈ (create_listening_socket a (env a)).2 := by
            rw [hc]
            exact hb
          rcases create_listening_socket_events a (env a) _ hb2 with
            h2 | h2 | h2 | h2 | h2 <;> exact absurd h2 (by simp)
      · have h2 : b = a := by
          have h3 := List.mem_singleton.1 hb
          injection h3 with h4
        rw [h2, ha]
        exact mem_take_of_lt addrs i k hik2 hil
    · intro b p hb
      rcases List.mem_append.1 hb with hb | hb
      · rcases List.mem_append.1 hb with hb | hb
        · exact hconn b p hb
        · have hb2 : Event.acceptConn b p ∈ (create_listening_socket a (env a)).2 := by
            rw [hc]
            exact hb
          rcases create_listening_socket_events a (env a) _ hb2 with
            h2 | h2 | h2 | h2 | h2 <;> exact absurd h2 (by simp)
      · exact absurd (List.mem_singleton.1 hb) (by simp)
  | bindErr a rest e2 evs hm hc =>
    obtain ⟨i, hik, hpe, hmap⟩ := hpend _ hm
    have hil : i < addrs.length := by
      by_contra hx
      rw [List.drop_eq_nil_iff.2 (Nat.le_of_not_lt hx)] at hpe
      exact List.noConfusion hpe
    rw [List.drop_eq_get_cons hil] at hpe
    injection hpe with ha hrest
    have hik2 : i = k := by
      rcases Nat.lt_or_ge i k with h1 | h1
      · exfalso
        have h2 := hok i h1
        rw [← ha] at h2
        rw [hc] at h2
        exact Except.noConfusion h2
      · exact Nat.le_antisymm hik h1
    subst hik2
    have h2 := hfail
    rw [← ha] at h2
    rw [hc] at h2
    have he2 : e2 = e := by
      injection h2 with h3
    refine ⟨fun h3 => MainPhase.noConfusion h3, fun h3 => MainPhase.noConfusion h3,
      ?_, fun pending h3 => MainPhase.noConfusion h3, hlis, ?_, ?_⟩
    · intro e3 h3
      have : e2 = e3 := by
        injection h3 with h4
      rw [← this, he2]
    · intro b hb
      rcases List.mem_append.1 hb with hb | hb
      · exact hspawn b hb
      · have hb2 : Event.spawnListener b ∈ (create_listening_socket a (env a)).2 := by
          rw [hc]
          exact hb
        rcases create_listening_socket_events a (env a) _ hb2 with
          h3 | h3 | h3 | h3 | h3 <;> exact absurd h3 (by simp)
    · intro b p hb
      rcases List.mem_append.1 hb with hb | hb
      · exact hconn b p hb
      · have hb2 : Event.acceptConn b p ∈ (create_listening_socket a (env a)).2 := by
          rw [hc]
          exact hb
        rcases create_listening_socket_events a (env a) _ hb2 with
          h3 | h3 | h3 | h3 | h3 <;> exact absurd h3 (by simp)
  | setupDone hm =>
    obtain ⟨i, hik, hpe, hmap⟩ := hpend _ hm
    have h2 : addrs.length ≤ i := List.drop_eq_nil_iff.1 hpe.symm
    exact absurd hk (by omega)
  | joinAll hm hfin => exact absurd hm hnj
  | listener i o hlen =>
    refine ⟨hnj, hnp, hdone, ?_, ?_, ?_, ?_⟩
    · intro pending hp
      obtain ⟨j, hjk, hpe, hmap⟩ := hpend pending hp
      exact ⟨j, hjk, hpe, by rw [map_addr_set_step _ _ hlen, hmap]⟩
    · intro u hu
      rcases List.mem_or_eq_of_mem_set hu with hu | hu
      · exact hlis u hu
      · rw [hu, listener_task_step_addr]
        exact hlis _ (List.get_mem _ i hlen)
    · intro b hb
      rcases List.mem_append.1 hb with hb | hb
      · exact hspawn b hb
      · rcases listener_task_step_events _ o _ hb with ⟨p, h2⟩ | ⟨p, h2⟩ | h2 <;>
          exact absurd h2 (by simp)
    · intro b p hb
      rcases List.mem_append.1 hb with hb | hb
      · exact hconn b p hb
      · rcases listener_task_step_events _ o _ hb with ⟨q, h2⟩ | ⟨q, h2⟩ | h2
        · have hb2 : b = (s.listeners.get ⟨i, hlen⟩).addr := by
            injection h2 with h3 h4
          rw [hb2]
          exact hlis _ (List.get_mem _ i hlen)
        · exact absurd h2 (by simp)
        · exact absurd h2 (by simp)

/-- When binding address number `k` fails and the earlier binds succeed,
there is an execution in which `run` returns exactly that bind error. -/
theorem run_reaches_bind_error (options : Options)
    (env : SocketAddr → ListenerEnv) (k : Nat) (e : BoxedError)
    (hk : k < options.tcp_listen_addrs.length)
    (hfail : (create_listening_socket (options.tcp_listen_addrs.get ⟨k, hk⟩)
      (env (options.tcp_listen_addrs.get ⟨k, hk⟩))).1 = .error e)
    (hok : ∀ j (hj : j < k),
      (create_listening_socket (options.tcp_listen_addrs.get ⟨j, hj.trans hk⟩)
        (env (options.tcp_listen_addrs.get ⟨j, hj.trans hk⟩))).1 = .ok ()) :
    ∃ s, RunReachable env (run_start options) s ∧ s.main = .done e := by
  have hne : options.tcp_listen_addrs ≠ [] :=
    List.ne_nil_of_length_pos (Nat.lt_of_le_of_lt (Nat.zero_le k) hk)
  have h0 : run_start options = ⟨.setup options.tcp_listen_addrs, [], []⟩ := by
    unfold run_start
    cases hx : options.tcp_listen_addrs with
    | nil => exact absurd hx hne
    | cons y ys => rfl
  have key : ∀ i, i ≤ k → ∃ ls lg, RunReachable env (run_start options)
      ⟨.setup (options.tcp_listen_addrs.drop i), ls, lg⟩ := by
    intro i
    induction i with
    | zero =>
      intro _
      refine ⟨[], [], ?_⟩
      rw [List.drop_zero, ← h0]
      exact Relation.ReflTransGen.refl
    | succ n ihn =>
      intro hnk
      obtain ⟨ls, lg, hr⟩ := ihn (Nat.le_of_succ_le hnk)
      have hnl : n < options.tcp_listen_addrs.length :=
        Nat.lt_trans (Nat.lt_of_succ_le hnk) hk
      have hcrea := hok n (Nat.lt_of_succ_le hnk)
      have hc : create_listening_socket (options.tcp_listen_addrs.get ⟨n, hnl⟩)
          (env (options.tcp_listen_addrs.get ⟨n, hnl⟩)) =
          (.ok (), (create_listening_socket (options.tcp_listen_addrs.get ⟨n, hnl⟩)
            (env (options.tcp_listen_addrs.get ⟨n, hnl⟩))).2) := by
        rw [← hcrea]
      have hstep := @RunStep.bindOk env
        ⟨.setup (options.tcp_listen_addrs.drop n), ls, lg⟩
        (options.tcp_listen_addrs.get ⟨n, hnl⟩)
        (options.tcp_listen_addrs.drop (n + 1))
        (create_listening_socket (options.tcp_listen_addrs.get ⟨n, hnl⟩)
          (env (options.tcp_listen_addrs.get ⟨n, hnl⟩))).2
        (by rw [List.drop_eq_get_cons hnl]) hc
      exact ⟨_, _, Relation.ReflTransGen.tail hr hstep⟩
  obtain ⟨ls, lg, hr⟩ := key k (Nat.le_refl k)
  have hc : create_listening_socket (options.tcp_listen_addrs.get ⟨k, hk⟩)
      (env (options.tcp_listen_addrs.get ⟨k, hk⟩)) =
      (.error e, (create_listening_socket (options.tcp_listen_addrs.get ⟨k, hk⟩)
        (env (options.tcp_listen_addrs.get ⟨k, hk⟩))).2) := by
    rw [← hfail]
  have hstep := @RunStep.bindErr env
    ⟨.setup (options.tcp_listen_addrs.drop k), ls, lg⟩
    (options.tcp_listen_addrs.get ⟨k, hk⟩)
    (options.tcp_listen_addrs.drop (k + 1)) e
    (create_listening_socket (options.tcp_listen_addrs.get ⟨k, hk⟩)
      (env (options.tcp_listen_addrs.get ⟨k, hk⟩))).2
    (by rw [List.drop_eq_get_cons hk]) hc
  exact ⟨_, Relation.ReflTransGen.tail hr hstep, rfl⟩

/-- C1 (amended): when binding listen address number `k` fails (all earlier
binds succeeding), `run` never completes setup or reaches its `unreachable!`,
any value it returns is that bind error and an execution returning it exists,
and no listener is ever spawned -- hence no connection is ever accepted -- on
the failing address or any later one.  (Accept loops already spawned for
earlier addresses run concurrently and may still accept sessions before `run`
returns; see the counterexample.) -/
theorem run_bind_failure_aborts_startup (options : Options)
    (env : SocketAddr → ListenerEnv) (k : Nat) (e : BoxedError)
    (hk : k < options.tcp_listen_addrs.length)
    (hfail : (create_listening_socket (options.tcp_listen_addrs.get ⟨k, hk⟩)
      (env (options.tcp_listen_addrs.get ⟨k, hk⟩))).1 = .error e)
    (hok : ∀ j (hj : j < k),
      (create_listening_socket (options.tcp_listen_addrs.get ⟨j, hj.trans hk⟩)
        (env (options.tcp_listen_addrs.get ⟨j, hj.trans hk⟩))).1 = .ok ()) :
    (∀ s, RunReachable env (run_start options) s →
      s.main ≠ .joining ∧ s.main ≠ .panicked ∧
      (∀ e2, s.main = .done e2 → e2 = e) ∧
      (∀ a, Event.spawnListener a ∈ s.log →
        a ∈ options.tcp_listen_addrs.take k) ∧
      (∀ a p, Event.acceptConn a p ∈ s.log →
        a ∈ options.tcp_listen_addrs.take k)) ∧
    (∃ s, RunReachable env (run_start options) s ∧ s.main = .done e) := by
  refine ⟨?_, run_reaches_bind_error options env k e hk hfail hok⟩
  intro s hs
  have hinv : BindFailInv options.tcp_listen_addrs k e s :=
    runReachable_invariant (BindFailInv options.tcp_listen_addrs k e)
      (run_start_bindFailInv options k e hk)
      (fun s t hi hstep =>
        bindFailInv_step options.tcp_listen_addrs env k e hk hfail hok
          s t hi hstep) hs
  exact ⟨hinv.1, hinv.2.1, hinv.2.2.1, hinv.2.2.2.2.2.1, hinv.2.2.2.2.2.2⟩

/-- C1 witness: the two-listener scenario with the second address in use; at
the start state the invariant conclusions hold. -/
theorem run_bind_failure_aborts_startup_witness :
    (run_start cexOptions).main ≠ MainPhase.joining :=
  ((run_bind_failure_aborts_startup cexOptions cexEnv 1
      (.tcpBindFailed cexA2 ⟨98⟩) (by decide) rfl
      (fun j hj => by
        have hj0 : j = 0 := by omega
        subst hj0
        rfl)).1
    (run_start cexOptions) Relation.ReflTransGen.refl).1

/-- C1 counterexample: an interleaving of the two-listener scenario in which
the accept loop already spawned for the first address accepts a connection
before the bind of the second address fails, so a session is accepted on a
successfully bound earlier address even though `run` then returns the bind
error.  This refutes the claim that startup failure precedes every accepted
session on every listen address. -/
theorem run_accept_before_bind_error :
    RunReachable cexEnv (run_start cexOptions) cexFinal ∧
    cexFinal.main = .done (.tcpBindFailed cexA2 ⟨98⟩) ∧
    Event.acceptConn cexA1 cexPeer ∈ cexFinal.log := by
  refine ⟨?_, rfl, by decide⟩
  have step1 : RunStep cexEnv (run_start cexOptions) cexS1 :=
    RunStep.bindOk (run_start cexOptions) cexA1 [cexA2] cexEvs1 rfl rfl
  have step2 : RunStep cexEnv cexS1 cexS2 :=
    RunStep.listener cexS1 0 (.conn cexPeer) (by decide)
  have step3 : RunStep cexEnv cexS2 cexFinal :=
    RunStep.bindErr cexS2 cexA2 [] (.tcpBindFailed cexA2 ⟨98⟩)
      [.newTcpSocket .v4, .applyTcpOptions, .setReuseaddr, .tcpBind cexA2]
      rfl rfl
  exact Relation.ReflTransGen.tail
    (Relation.ReflTransGen.tail
      (Relation.ReflTransGen.tail Relation.ReflTransGen.refl step1) step2) step3

/-- C8: when `--udp-bind` is not supplied, `Options::udp_bind_ip` defaults to
the unspecified IPv4 address 0.0.0.0. -/
theorem default_udp_bind_ip_unspecified :
    default_udp_bind_ip = IpAddr.v4 0 0 0 0 ∧
    default_udp_bind_ip.is_unspecified = true :=
  ⟨rfl, rfl⟩

/-- C10: `create_listening_socket` creates the TCP socket with the address
family of the listen address: `TcpSocket::new_v4` for a V4 address,
`TcpSocket::new_v6` for a V6 address, and it does so as its first operation. -/
theorem create_listening_socket_family_matches :
    (∀ (env : ListenerEnv) (a b c d p : Nat),
      (create_listening_socket ⟨.v4 a b c d, p⟩ env).2.head? =
        some (.newTcpSocket .v4)) ∧
    (∀ (env : ListenerEnv) (segs : List Nat) (p : Nat),
      (create_listening_socket ⟨.v6 segs, p⟩ env).2.head? =
        some (.newTcpSocket .v6)) := by
  constructor
  · intro env a b c d p
    obtain ⟨ns, ao, sr, bt, lt⟩ := env
    cases ns <;> cases ao <;> cases sr <;> cases bt <;> cases lt <;> rfl
  · intro env segs p
    obtain ⟨ns, ao, sr, bt, lt⟩ := env
    cases ns <;> cases ao <;> cases sr <;> cases bt <;> cases lt <;> rfl

/-- C9: once the UDP socket is bound and connected, `process_socket` returns
`Ok(())` no matter how the bridge terminates; an error return can only be a
UDP bind or UDP connect failure. -/
theorem process_socket_ok_after_setup (tcp_peer : SocketAddr) (ip : IpAddr)
    (peer : SocketAddr) (env : SessionEnv) :
    (env.udpBindRes ⟨ip, 0⟩ = .ok () → env.udpConnectRes peer = .ok () →
      (process_socket tcp_peer ip peer env).1 = .ok ()) ∧
    (∀ e, (process_socket tcp_peer ip peer env).1 = .error e →
      (∃ a c, e = .udpBindFailed a c) ∨ (∃ a c, e = .udpConnectFailed a c)) := by
  cases hb : env.udpBindRes ⟨ip, 0⟩ with
  | error ec =>
    refine ⟨?_, ?_⟩
    · intro h
      exact Except.noConfusion h
    · intro e h
      simp only [process_socket, hb] at h
      injection h with h2
      exact Or.inl ⟨⟨ip, 0⟩, ec, h2.symm⟩
  | ok u =>
    cases hc : env.udpConnectRes peer with
    | error ec =>
      refine ⟨?_, ?_⟩
      · intro _ h
        exact Except.noConfusion h
      · intro e h
        simp only [process_socket, hb, hc] at h
        injection h with h2
        exact Or.inr ⟨peer, ec, h2.symm⟩
    | ok v =>
      refine ⟨?_, ?_⟩
      · intro _ _
        simp [process_socket, hb, hc]
      · intro e h
        simp [process_socket, hb, hc] at h

/-- C9 witness: with both setup calls succeeding and the bridge ending in a
transport error, `process_socket` still returns `Ok(())`. -/
theorem process_socket_ok_after_setup_witness :
    (process_socket ⟨.v4 10 0 0 1, 4000⟩ (.v4 0 0 0 0) ⟨.v4 127 0 0 1, 51820⟩
      ⟨fun _ => .ok (), fun _ => .ok (), .transportError ⟨5⟩⟩).1 = .ok () :=
  (process_socket_ok_after_setup ⟨.v4 10 0 0 1, 4000⟩ (.v4 0 0 0 0)
    ⟨.v4 127 0 0 1, 51820⟩ ⟨fun _ => .ok (), fun _ => .ok (),
      .transportError ⟨5⟩⟩).1 rfl rfl

/-- C2: with an empty `tcp_listen_addrs` list, `run` returns
`Err(NoTcpListenAddrs)` at once: the start state records the error with an
empty trace and no spawned task, and no step is possible from it. -/
theorem run_no_tcp_listen_addrs (options : Options)
    (h : options.tcp_listen_addrs = []) :
    run_start options = ⟨.done (.config .noTcpListenAddrs), [], []⟩ ∧
    (run_start options).runReturn =
      some (.error (.config .noTcpListenAddrs)) ∧
    ∀ env s, ¬ RunStep env (run_start options) s := by
  have hrs : run_start options = ⟨.done (.config .noTcpListenAddrs), [], []⟩ := by
    simp [run_start, h]
  refine ⟨hrs, by rw [hrs]; rfl, ?_⟩
  intro env s hstep
  rw [hrs] at hstep
  cases hstep with
  | bindOk a rest evs hm hc => exact MainPhase.noConfusion hm
  | bindErr a rest e evs hm hc => exact MainPhase.noConfusion hm
  | setupDone hm => exact MainPhase.noConfusion hm
  | joinAll hm hfin => exact MainPhase.noConfusion hm
  | listener i o hlen => exact Nat.not_lt_zero i hlen

/-- C2 witness: concrete options with no listen addresses. -/
theorem run_no_tcp_listen_addrs_witness :
    run_start ⟨[], ⟨.v4 127 0 0 1, 51820⟩, .v4 0 0 0 0⟩ =
      ⟨.done (.config .noTcpListenAddrs), [], []⟩ :=
  (run_no_tcp_listen_addrs ⟨[], ⟨.v4 127 0 0 1, 51820⟩, .v4 0 0 0 0⟩ rfl).1

/-- C3: if the per-session UDP bind (or connect) fails, `process_socket`
returns the wrapped error, the bridge never runs, the spawned session task
only logs the error, and the accept loop body continues regardless of any
accept outcome. -/
theorem process_socket_setup_failure_isolated (tcp_peer : SocketAddr)
    (ip : IpAddr) (peer : SocketAddr) (env : SessionEnv) :
    (∀ e, env.udpBindRes ⟨ip, 0⟩ = .error e →
      (process_socket tcp_peer ip peer env).1 =
        .error (.udpBindFailed ⟨ip, 0⟩ e) ∧
      Event.runBridge ∉ (process_socket tcp_peer ip peer env).2 ∧
      session_task tcp_peer ip peer env =
        (process_socket tcp_peer ip peer env).2 ++ [.logSessionError]) ∧
    (∀ e u, env.udpBindRes ⟨ip, 0⟩ = .ok u →
      env.udpConnectRes peer = .error e →
      (process_socket tcp_peer ip peer env).1 =
        .error (.udpConnectFailed peer e) ∧
      Event.runBridge ∉ (process_socket tcp_peer ip peer env).2 ∧
      session_task tcp_peer ip peer env =
        (process_socket tcp_peer ip peer env).2 ++ [.logSessionError]) ∧
    (∀ a o, (accept_loop_body a o).1 = .continueLoop) := by
  refine ⟨?_, ?_, ?_⟩
  · intro e he
    refine ⟨?_, ?_, ?_⟩ <;> simp [process_socket, session_task, he]
  · intro e u hb hc
    refine ⟨?_, ?_, ?_⟩ <;> simp [process_socket, session_task, hb, hc]
  · intro a o
    cases o <;> rfl

/-- C3 witness: a concrete session whose UDP bind fails with error code 13. -/
theorem process_socket_setup_failure_isolated_witness :
    (process_socket ⟨.v4 192 168 0 2, 9000⟩ (.v4 0 0 0 0) ⟨.v4 127 0 0 1, 51820⟩
        ⟨fun _ => .error ⟨13⟩, fun _ => .ok (), .cleanClose⟩).1 =
      .error (.udpBindFailed ⟨.v4 0 0 0 0, 0⟩ ⟨13⟩) ∧
    Event.runBridge ∉ (process_socket ⟨.v4 192 168 0 2, 9000⟩ (.v4 0 0 0 0)
        ⟨.v4 127 0 0 1, 51820⟩
        ⟨fun _ => .error ⟨13⟩, fun _ => .ok (), .cleanClose⟩).2 ∧
    session_task ⟨.v4 192 168 0 2, 9000⟩ (.v4 0 0 0 0) ⟨.v4 127 0 0 1, 51820⟩
        ⟨fun _ => .error ⟨13⟩, fun _ => .ok (), .cleanClose⟩ =
      (process_socket ⟨.v4 192 168 0 2, 9000⟩ (.v4 0 0 0 0)
        ⟨.v4 127 0 0 1, 51820⟩
        ⟨fun _ => .error ⟨13⟩, fun _ => .ok (), .cleanClose⟩).2 ++
        [.logSessionError] :=
  (process_socket_setup_failure_isolated ⟨.v4 192 168 0 2, 9000⟩ (.v4 0 0 0 0)
    ⟨.v4 127 0 0 1, 51820⟩
    ⟨fun _ => .error ⟨13⟩, fun _ => .ok (), .cleanClose⟩).1 ⟨13⟩ rfl

/-- C6: `process_socket` first binds the UDP socket to port 0 (an ephemeral
port) on the configured bind IP, every connect targets the configured forward
address and happens strictly after the bind, and on a setup error the bridge
never runs. -/
theorem process_socket_udp_setup_order (tcp_peer : SocketAddr) (ip : IpAddr)
    (peer : SocketAddr) (env : SessionEnv) :
    (process_socket tcp_peer ip peer env).2.head? =
      some (.udpBind ⟨ip, 0⟩) ∧
    (∀ a, Event.udpConnect a ∈ (process_socket tcp_peer ip peer env).2 →
      a = peer) ∧
    (∀ j, (process_socket tcp_peer ip peer env).2.get? j =
        some (.udpConnect peer) →
      ∃ i, i < j ∧ (process_socket tcp_peer ip peer env).2.get? i =
        some (.udpBind ⟨ip, 0⟩)) ∧
    (∀ e, (process_socket tcp_peer ip peer env).1 = .error e →
      Event.runBridge ∉ (process_socket tcp_peer ip peer env).2) := by
  cases hb : env.udpBindRes ⟨ip, 0⟩ with
  | error ec =>
    refine ⟨by simp [process_socket, hb], ?_, ?_, ?_⟩
    · intro a ha
      simp [process_socket, hb] at ha
    · intro j hj
      rcases j with _ | j <;> simp [process_socket, hb] at hj
    · intro e he
      simp [process_socket, hb]
  | ok u =>
    cases hc : env.udpConnectRes peer with
    | error ec =>
      refine ⟨by simp [process_socket, hb, hc], ?_, ?_, ?_⟩
      · intro a ha
        simp [process_socket, hb, hc] at ha
        exact ha
      · intro j hj
        rcases j with _ | _ | j <;> simp [process_socket, hb, hc] at hj
        exact ⟨0, Nat.zero_lt_one, by simp [process_socket, hb, hc]⟩
      · intro e he
        simp [process_socket, hb, hc]
    | ok v =>
      refine ⟨by simp [process_socket, hb, hc], ?_, ?_, ?_⟩
      · intro a ha
        simp [process_socket, hb, hc] at ha
        exact ha
      · intro j hj
        rcases j with _ | _ | _ | j <;> simp [process_socket, hb, hc] at hj
        exact ⟨0, Nat.zero_lt_one, by simp [process_socket, hb, hc]⟩
      · intro e he
        simp [process_socket, hb, hc] at he

/-- C6 witness: a concrete session with a failing UDP connect; the trace
starts with the bind to port 0 and contains no bridge run. -/
theorem process_socket_udp_setup_order_witness :
    (process_socket ⟨.v4 192 168 0 7, 9100⟩ (.v4 10 0 0 9) ⟨.v4 127 0 0 1, 51820⟩
        ⟨fun _ => .ok (), fun _ => .error ⟨111⟩, .cleanClose⟩).2.head? =
      some (.udpBind ⟨.v4 10 0 0 9, 0⟩) ∧
    Event.runBridge ∉ (process_socket ⟨.v4 192 168 0 7, 9100⟩ (.v4 10 0 0 9)
        ⟨.v4 127 0 0 1, 51820⟩
        ⟨fun _ => .ok (), fun _ => .error ⟨111⟩, .cleanClose⟩).2 :=
  ⟨(process_socket_udp_setup_order ⟨.v4 192 168 0 7, 9100⟩ (.v4 10 0 0 9)
      ⟨.v4 127 0 0 1, 51820⟩
      ⟨fun _ => .ok (), fun _ => .error ⟨111⟩, .cleanClose⟩).1,
    (process_socket_udp_setup_order ⟨.v4 192 168 0 7, 9100⟩ (.v4 10 0 0 9)
      ⟨.v4 127 0 0 1, 51820⟩
      ⟨fun _ => .ok (), fun _ => .error ⟨111⟩, .cleanClose⟩).2.2.2
      (.udpConnectFailed ⟨.v4 127 0 0 1, 51820⟩ ⟨111⟩) rfl⟩

/-- C7: `create_listening_socket` sets `SO_REUSEADDR` after creating the
socket and applying the TCP options but before binding (whenever the bind is
attempted, the trace up to it is create, apply options, set reuse, bind); the
only backlog ever passed to `listen` is 1024, i.e. on the order of a few
hundred to a thousand pending connections; a bind failure is returned as
`tcpBindFailed` carrying exactly the listen address and the underlying cause;
and on success the socket is listening. -/
theorem create_listening_socket_setup (addr : SocketAddr) (env : ListenerEnv) :
    (Event.tcpBind addr ∈ (create_listening_socket addr env).2 →
      (create_listening_socket addr env).2.take 4 =
        [.newTcpSocket addr.family, .applyTcpOptions, .setReuseaddr,
          .tcpBind addr]) ∧
    (∀ b, Event.tcpListen b ∈ (create_listening_socket addr env).2 →
      b = 1024 ∧ 200 ≤ b ∧ b ≤ 1024) ∧
    (∀ e, env.newSocket = .ok () → env.applyOpts = .ok () →
      env.setReuse = .ok () → env.bindTcp = .error e →
      (create_listening_socket addr env).1 = .error (.tcpBindFailed addr e)) ∧
    (∀ a c, (create_listening_socket addr env).1 =
        .error (.tcpBindFailed a c) →
      a = addr ∧ env.bindTcp = .error c) ∧
    ((create_listening_socket addr env).1 = .ok () →
      Event.tcpListen 1024 ∈ (create_listening_socket addr env).2) := by
  obtain ⟨ns, ao, sr, bt, lt⟩ := env
  cases ns <;> cases ao <;> cases sr <;> cases bt <;> cases lt <;>
    refine ⟨?_, ?_, ?_, ?_, ?_⟩ <;> intros <;>
      simp_all [create_listening_socket]

/-- C7 witness: a concrete listen address whose bind fails with error code 98
(address in use); the returned error carries the address and the cause, and
the operations before the bind are create, apply options, set reuse. -/
theorem create_listening_socket_setup_witness :
    (create_listening_socket ⟨.v4 0 0 0 0, 51820⟩
        ⟨.ok (), .ok (), .ok (), .error ⟨98⟩, .ok ()⟩).1 =
      .error (.tcpBindFailed ⟨.v4 0 0 0 0, 51820⟩ ⟨98⟩) ∧
    (create_listening_socket ⟨.v4 0 0 0 0, 51820⟩
        ⟨.ok (), .ok (), .ok (), .error ⟨98⟩, .ok ()⟩).2.take 4 =
      [.newTcpSocket .v4, .applyTcpOptions, .setReuseaddr,
        .tcpBind ⟨.v4 0 0 0 0, 51820⟩] :=
  ⟨(create_listening_socket_setup ⟨.v4 0 0 0 0, 51820⟩
      ⟨.ok (), .ok (), .ok (), .error ⟨98⟩, .ok ()⟩).2.2.1 ⟨98⟩ rfl rfl rfl rfl,
    (create_listening_socket_setup ⟨.v4 0 0 0 0, 51820⟩
      ⟨.ok (), .ok (), .ok (), .error ⟨98⟩, .ok ()⟩).1 (by decide)⟩

/-- C5: round-trip framing.  Encoding any finite sequence of payloads, each at
most 65535 bytes long, as length-prefixed frames and decoding the
concatenated stream yields back exactly the original sequence, empty payloads
included. -/
theorem decodeStream_encodeStream (ps : List (List Nat))
    (h : ∀ p ∈ ps, p.length ≤ 65535) :
    decodeStream (encodeStream ps) = some ps := by
  induction ps with
  | nil => simp [encodeStream, decodeStream]
  | cons p tail ih =>
    have htail : ∀ q ∈ tail, q.length ≤ 65535 := fun q hq =>
      h q (List.mem_cons_of_mem _ hq)
    have hstream : encodeStream (p :: tail) =
        p.length / 256 :: p.length % 256 :: (p ++ encodeStream tail) := by
      simp [encodeStream, encodeFrame]
    rw [hstream, decodeStream, Nat.div_add_mod', List.drop_left, ih htail]
    simp [List.take_left]

/-- C5 witness: a concrete sequence with an empty payload round-trips. -/
theorem decodeStream_encodeStream_witness :
    decodeStream (encodeStream [[7, 8, 9], [], [255, 0]]) =
      some [[7, 8, 9], [], [255, 0]] :=
  decodeStream_encodeStream [[7, 8, 9], [], [255, 0]] (by decide)

end UdpOverTcp
